import Mathlib

/-!
Shallow embedding of the LangGraph demo agents of this repository
(`agents/cycles_iteration.py`, `agents/human_in_loop.py`,
`agents/router_pattern.py`, `agents/travel_agent.py`) and proofs about them.

Modelling conventions:
* Python `float` weights are modelled as `ℚ`.  Every comparison made by the
  code on the concrete inputs treated below has a margin far larger than any
  float rounding error, so the rational model is faithful there.
* A Python `dict` is modelled as an association list with unique keys;
  insertion order is preserved, updating an existing key keeps its position,
  and inserting a fresh key appends (CPython dict semantics).
* Display-only strings that interpolate formatted numbers (violation
  messages, adjustment descriptions, trade reports) are modelled as inductive
  data carrying exactly the interpolated values; the fixed literal strings
  that the code returns verbatim are kept as strings.
* Exceptions a step can raise (`KeyError`, `ZeroDivisionError`, `TypeError`)
  are modelled with `Except`.
-/

/-! ## Python dict of weights (`holdings` in `cycles_iteration.py`) -/

/-- Association-list model of a Python `dict[str, float]`. -/
abbrev Weights := List (String × ℚ)

/-- Python `d.get(k, dflt)`: value of the first binding of `k`, else the default. -/
def dictGet (d : Weights) (k : String) (dflt : ℚ) : ℚ :=
  match d.find? (fun p => p.1 == k) with
  | some p => p.2
  | none => dflt

/-- Python `k in d`. -/
def dictMem (d : Weights) (k : String) : Bool :=
  d.any (fun p => p.1 == k)

/-- Python `d[k] = v`: update in place when present, append when absent. -/
def dictSet (d : Weights) (k : String) (v : ℚ) : Weights :=
  if dictMem d k then d.map (fun p => if p.1 == k then (p.1, v) else p)
  else d ++ [(k, v)]

/-- Python `sum(d.values())`. -/
def dictSum (d : Weights) : ℚ :=
  (d.map Prod.snd).sum

/-- Python's built-in `abs`. -/
def pyAbs (q : ℚ) : ℚ :=
  if q < 0 then -q else q

/-! ## State of `cycles_iteration.py` -/

/-- One entry of the `violations` list built by `check_constraints`.
Each constructor carries the data interpolated into the Python dict
(`type`, `ticker`, `current`); the constant `limit` / `required` fields and
the formatted `message` are determined by these. -/
inductive Violation
  | position_size (ticker : String) (current : ℚ)
  | cash_reserve (current : ℚ)
  | sum_constraint (current : ℚ)
deriving DecidableEq, Repr

/-- One entry of the `adjustments` list built by `adjust_portfolio`,
abstracting the three f-strings appended there. -/
inductive Adjustment
  | reduced (ticker : String) (oldWeight newWeight : ℚ)
  | increasedCash
  | normalized
deriving DecidableEq, Repr

/-- The `PortfolioState` TypedDict. -/
structure PortfolioState where
  holdings : Weights
  violations : List Violation
  iteration_count : ℤ
  adjustments_made : List Adjustment
  status : String
deriving DecidableEq, Repr

/-- Constant `MAX_POSITION_SIZE = 0.25`. -/
def MAX_POSITION_SIZE : ℚ := 25 / 100

/-- Constant `MIN_CASH_RESERVE = 0.05`. -/
def MIN_CASH_RESERVE : ℚ := 5 / 100

/-- Constant `MAX_ITERATIONS = 5`. -/
def MAX_ITERATIONS : ℤ := 5

/-! ## `check_constraints` -/

/-- Check 1 of `check_constraints`: position-size violations, in dict order. -/
def positionViolations (holdings : Weights) : List Violation :=
  holdings.filterMap (fun p =>
    if p.1 ≠ "CASH" ∧ MAX_POSITION_SIZE < p.2 then
      some (Violation.position_size p.1 p.2)
    else none)

/-- The `check_constraints` step function. -/
def check_constraints (s : PortfolioState) : PortfolioState :=
  let holdings := s.holdings
  let v1 := positionViolations holdings
  let cash_position := dictGet holdings "CASH" 0
  let v2 := if cash_position < MIN_CASH_RESERVE then
      [Violation.cash_reserve cash_position] else []
  let total_weight := dictSum holdings
  let v3 := if 1 / 100 < pyAbs (total_weight - 1) then
      [Violation.sum_constraint total_weight] else []
  { s with
    violations := v1 ++ v2 ++ v3
    iteration_count := s.iteration_count + 1
    status := "checking" }

/-! ## `adjust_portfolio` -/

/-- A Python exception escaping a step function. -/
inductive PyError
  | keyError (key : String)
  | zeroDivisionError
  | typeErrorCmp
deriving DecidableEq, Repr

/-- Python `str(e)` for the exceptions whose text the claims mention.
`str(KeyError(k))` is the repr of the key; `str(ZeroDivisionError(...))` for a
float division is `"float division by zero"`.  The `TypeError` text raised
when comparing a non-numeric JSON value is not modelled. -/
def pyErrorMessage : PyError → Option String
  | .keyError k => some ("\x27" ++ k ++ "\x27")
  | .zeroDivisionError => some "float division by zero"
  | .typeErrorCmp => none

/-- The first loop of `adjust_portfolio`: cap each `position_size` violation's
ticker at `MAX_POSITION_SIZE`.  `holdings[ticker]` raises `KeyError` when the
ticker is absent. -/
def capPositions : List Violation → Weights → List Adjustment →
    Except PyError (Weights × List Adjustment)
  | [], h, adjs => .ok (h, adjs)
  | .position_size t _ :: rest, h, adjs =>
      if dictMem h t then
        capPositions rest (dictSet h t MAX_POSITION_SIZE)
          (adjs ++ [Adjustment.reduced t (dictGet h t 0) MAX_POSITION_SIZE])
      else .error (.keyError t)
  | _ :: rest, h, adjs => capPositions rest h adjs

/-- The cash-reserve fix of `adjust_portfolio` (never raises). -/
def fixCash (violations : List Violation) (h : Weights)
    (adjs : List Adjustment) : Weights × List Adjustment :=
  let hasCashViolation := violations.any
    (fun v => match v with | .cash_reserve _ => true | _ => false)
  if hasCashViolation then
    let current_cash := dictGet h "CASH" 0
    let needed_cash := MIN_CASH_RESERVE - current_cash
    let non_cash_total := dictSum (h.filter (fun p => p.1 != "CASH"))
    if 0 < non_cash_total then
      let scale_factor := (non_cash_total - needed_cash) / non_cash_total
      let h2 := h.map (fun p =>
        if p.1 == "CASH" then p else (p.1, p.2 * scale_factor))
      (dictSet h2 "CASH" (dictGet h2 "CASH" 0 + needed_cash),
       adjs ++ [Adjustment.increasedCash])
    else (h, adjs)
  else (h, adjs)

/-- The final normalization of `adjust_portfolio`.  When the total is off by
more than 1%, every weight is divided by the total; with at least one entry
and a zero total this is a float division by zero, which raises. -/
def normalizeHoldings (h : Weights) (adjs : List Adjustment) :
    Except PyError (Weights × List Adjustment) :=
  let total := dictSum h
  if 1 / 100 < pyAbs (total - 1) then
    if h = [] then .ok (h, adjs ++ [Adjustment.normalized])
    else if total = 0 then .error .zeroDivisionError
    else .ok (h.map (fun p => (p.1, p.2 / total)),
              adjs ++ [Adjustment.normalized])
  else .ok (h, adjs)

/-- The `adjust_portfolio` step function. -/
def adjust_portfolio (s : PortfolioState) : Except PyError PortfolioState :=
  match capPositions s.violations s.holdings [] with
  | .error e => .error e
  | .ok capped =>
    let fixed := fixCash s.violations capped.1 capped.2
    match normalizeHoldings fixed.1 fixed.2 with
    | .error e => .error e
    | .ok normed =>
        .ok { s with
              holdings := normed.1
              adjustments_made := s.adjustments_made ++ normed.2
              status := "adjusting" }

/-! ## Router and execution loop of the cycles workflow -/

/-- The `should_continue_iteration` router. -/
def should_continue_iteration (s : PortfolioState) : String :=
  if MAX_ITERATIONS ≤ s.iteration_count then "max_iterations"
  else if s.violations = [] then "satisfied"
  else "adjust"

/-- Outcome of one run of the compiled cycles graph. -/
inductive RunOutcome
  | finished (s : PortfolioState) (label : String)
  | stepError (e : PyError)
  | stepLimit (s : PortfolioState)
deriving DecidableEq, Repr

/-- Execution of the compiled graph of `build_cycles_agent`: entry point
`check_constraints`; the router either ends the run (label `"satisfied"` or
`"max_iterations"`) or routes to `adjust_portfolio`, which loops back.
`fuel` is the engine's step ceiling on loop traversals (LangGraph's
recursion limit / the spec's `max_steps`); exhausting it aborts the run.
`steps` accumulates the node executions begun during the run (the check
pass, and the adjust pass when routed to). -/
def runCyclesFrom : ℕ → PortfolioState → ℕ → RunOutcome × ℕ
  | 0, s, steps => (.stepLimit s, steps)
  | fuel + 1, s, steps =>
    let s1 := check_constraints s
    match should_continue_iteration s1 with
    | "adjust" =>
        match adjust_portfolio s1 with
        | .ok s2 => runCyclesFrom fuel s2 (steps + 2)
        | .error e => (.stepError e, steps + 2)
    | label => (.finished s1 label, steps + 1)

/-! ## `run_constraint_checker` -/

/-- A parsed JSON value, the possible results of `json.loads`. -/
inductive Json
  | null
  | bool (b : Bool)
  | num (q : ℚ)
  | str (s : String)
  | arr (xs : List Json)
  | obj (fields : List (String × Json))

/-- Reads a parsed JSON object as a weights dict; `none` when some value is
not a number, in which case the first comparison made on it by
`check_constraints` raises a `TypeError`. -/
def jsonToWeights : List (String × Json) → Option Weights
  | [] => some []
  | (k, .num q) :: rest => (jsonToWeights rest).map (fun w => (k, q) :: w)
  | _ => none

/-- Which branch of `run_constraint_checker` produces the returned pair. -/
inductive RCCOutcome
  | invalidJson
  | notDict
  | engineError (e : PyError)
  | recursionLimit
  | success (finalState : PortfolioState)
deriving DecidableEq

/-- The initial state built by `run_constraint_checker`. -/
def initialPortfolioState (holdings : Weights) : PortfolioState :=
  { holdings := holdings
    violations := []
    iteration_count := 0
    adjustments_made := []
    status := "checking" }

/-- LangGraph's default recursion limit, the loop ceiling of `app.invoke`. -/
def INVOKE_STEP_LIMIT : ℕ := 25

/-- Model of `run_constraint_checker`, up to the branch taken, together with the
number of step-function executions begun during the call.  The input is the
outcome of `json.loads` on the argument string (`.error ()` for a
`JSONDecodeError`).  Both early validation returns fire before the agent is
built, so no step function runs there. -/
def run_constraint_checker (input : Except Unit Json) : RCCOutcome × ℕ :=
  match input with
  | .error _ => (.invalidJson, 0)
  | .ok (.obj fields) =>
      match jsonToWeights fields with
      | none => (.engineError .typeErrorCmp, 1)
      | some w =>
          match runCyclesFrom INVOKE_STEP_LIMIT (initialPortfolioState w) 0 with
          | (.finished f _, n) => (.success f, n)
          | (.stepError e, n) => (.engineError e, n)
          | (.stepLimit _, n) => (.recursionLimit, n)
  | .ok _ => (.notDict, 0)

/-- Literal message returned for a JSON parse failure. -/
def invalidJsonMsg : String :=
  "❌ Invalid JSON format. Please provide a valid portfolio dictionary."

/-- The literal message for a non-dict portfolio. -/
def notDictMsg : String :=
  "❌ Portfolio must be a dictionary of \x7bticker: weight\x7d"

/-- Prefix of the message built by the outer `except` clause. -/
def rccErrorPrefix : String := "❌ Error executing constraint checker: "

/-- Opaque result of `utils.graph_viz.visualize_graph`. -/
structure GraphImage where
  unit : Unit
deriving DecidableEq

/-- The pair `run_constraint_checker` returns, given the branch taken.
`fmt` abstracts the display-only `format_results` text and `viz` the graph
image, neither of which is modelled further; `none` marks the branches whose
message text is not modelled (unreached by the claims below). -/
def rccPair (fmt : PortfolioState → String) (viz : Option GraphImage) :
    RCCOutcome → Option (String × Option GraphImage)
  | .invalidJson => some (invalidJsonMsg, none)
  | .notDict => some (notDictMsg, none)
  | .engineError e =>
      (pyErrorMessage e).map (fun m => (rccErrorPrefix ++ m, none))
  | .recursionLimit => none
  | .success f => some (fmt f, viz)

/-! ## State and steps of `human_in_loop.py` -/

/-- The analysis text built by `analyze_trade`, abstracted to the values
interpolated into it. -/
inductive TradeAnalysis
  | empty
  | report (trade_type ticker : String) (quantity : ℤ) (price : ℚ)
deriving DecidableEq

/-- The `execution_result` strings, abstracted to the interpolated values.
`executed` carries the fresh `uuid4`-derived order id. -/
inductive TradeResult
  | empty
  | executed (order_id : String) (ticker trade_type : String)
      (quantity : ℤ) (price : ℚ)
  | rejected (quantity : ℤ) (ticker : String)
  | cancelled (ticker trade_type : String) (quantity : ℤ) (price : ℚ)
deriving DecidableEq

/-- The `TradeState` TypedDict. -/
structure TradeState where
  ticker : String
  quantity : ℤ
  price : ℚ
  trade_type : String
  analysis : TradeAnalysis
  human_decision : String
  execution_result : TradeResult
  thread_id : String
deriving DecidableEq

/-- The `analyze_trade` step function. -/
def analyze_trade (s : TradeState) : TradeState :=
  { s with
    analysis := TradeAnalysis.report s.trade_type s.ticker s.quantity s.price
    human_decision := "pending" }

/-- The `human_approval` step function: returns its state unchanged. -/
def human_approval (s : TradeState) : TradeState := s

/-- The `execute_trade` step function.  `order_id` is the value of
`uuid.uuid4().hex[:8].upper()` drawn during the call, made explicit because
every call draws a fresh one. -/
def execute_trade (order_id : String) (s : TradeState) : TradeState :=
  if s.human_decision = "approved" then
    { s with
      execution_result :=
        TradeResult.executed order_id s.ticker s.trade_type s.quantity s.price }
  else
    { s with
      execution_result := TradeResult.rejected s.quantity s.ticker }

/-- The closure returned by `create_cancel_node`. -/
def cancel_trade (s : TradeState) : TradeState :=
  { s with
    execution_result :=
      TradeResult.cancelled s.ticker s.trade_type s.quantity s.price }

/-- The `should_execute` router. -/
def should_execute (s : TradeState) : String :=
  if s.human_decision = "approved" then "execute"
  else if s.human_decision = "rejected" then "cancel"
  else "cancel"

/-- Re-entering the compiled graph of `build_hitl_agent` at the suspended
`human_approval` step: run the step, then its router, then the chosen
terminal step (`execute_trade` or `cancel_trade`), as the spec's resume
semantics prescribe. -/
def resume_from_human_approval (order_id : String) (st : TradeState) :
    TradeState :=
  let s1 := human_approval st
  match should_execute s1 with
  | "execute" => execute_trade order_id s1
  | _ => cancel_trade s1

/-! ## The pending-trades store and resume helpers -/

/-- The module-level `_pending_trades` dict, keyed by thread id.  Only the
saved state matters to the helpers; the stored app and config are rebuilt
or derived from the key. -/
abbrev PendingStore := List (String × TradeState)

/-- Literal message returned when no pending trade matches a thread id. -/
def noPendingMsg : String :=
  "❌ No pending trade found. Please submit a trade first."

/-- Model of `approve_trade`: looks up the pending trade, merges
`human_decision = "approved"`, runs `execute_trade` directly, deletes the
entry, and returns the execution result.  The returned value is the message
(left) or the `execution_result` of the final state (right), paired with
the store after the call. -/
def approve_trade (order_id : String) (store : PendingStore)
    (thread_id : String) : (String ⊕ TradeResult) × PendingStore :=
  match store.find? (fun p => p.1 == thread_id) with
  | none => (.inl noPendingMsg, store)
  | some (_, st) =>
      let merged := { st with human_decision := "approved" }
      let final := execute_trade order_id merged
      (.inr final.execution_result,
       store.filter (fun p => p.1 != thread_id))

/-- Model of `reject_trade`: as `approve_trade` but merging `"rejected"` and running
the cancel node. -/
def reject_trade (store : PendingStore) (thread_id : String) :
    (String ⊕ TradeResult) × PendingStore :=
  match store.find? (fun p => p.1 == thread_id) with
  | none => (.inl noPendingMsg, store)
  | some (_, st) =>
      let merged := { st with human_decision := "rejected" }
      let final := cancel_trade merged
      (.inr final.execution_result,
       store.filter (fun p => p.1 != thread_id))

/-! ## `router_pattern.py` -/

/-- The `InvestmentState` TypedDict. -/
structure InvestmentState where
  user_input : String
  asset_type : String
  analysis_result : String
  routing_path : String
deriving DecidableEq

/-- Python's `needle in hay` on strings. -/
def strContains (hay needle : String) : Bool :=
  decide (needle.toList <:+: hay.toList)

/-- The equity keyword list of `route_to_analysis`. -/
def equity_keywords : List String :=
  ["stock", "stocks", "equity", "equities", "share", "shares",
   "nasdaq", "s&p", "dow", "ipo", "dividend"]

/-- The bond keyword list of `route_to_analysis`. -/
def bond_keywords : List String :=
  ["bond", "bonds", "fixed income", "treasury", "treasuries",
   "corporate bond", "municipal bond", "yield", "coupon"]

/-- The `route_to_analysis` router. -/
def route_to_analysis (s : InvestmentState) : String :=
  let user_input := s.user_input.toLower
  if equity_keywords.any (fun k => strContains user_input k) then "equity"
  else if bond_keywords.any (fun k => strContains user_input k) then "bond"
  else "alternative"

/-! ## `call_model_with_tools` of `travel_agent.py` -/

/-- Opaque chat message (the travel-agent state keeps a message list). -/
structure ChatMessage where
  content : String
deriving DecidableEq

/-- The travel agent's `AgentState`: a message history. -/
structure AgentState where
  messages : List ChatMessage
deriving DecidableEq

/-- Model of `call_model_with_tools`: invokes the bound LLM on the history and
returns the partial update `{"messages": [response]}`.  The model's reply
is an external draw, made explicit as the `response` argument. -/
def call_model_with_tools (response : ChatMessage) (_s : AgentState) :
    List ChatMessage :=
  [response]

/-! ## Concrete sample data used by the claims -/

/-- True exactly on `stepLimit` outcomes. -/
def RunOutcome.isStepLimit : RunOutcome → Bool
  | .stepLimit _ => true
  | _ => false

/-- True exactly on JSON objects (Python `isinstance(x, dict)`). -/
def Json.isObj : Json → Bool
  | .obj _ => true
  | _ => false

/-- The initial state `run_constraint_checker` builds for the portfolio
`{"AAPL": 0.50, "CASH": 0.50}` of the concrete spec example. -/
def c1Init : PortfolioState :=
  initialPortfolioState [("AAPL", 1 / 2), ("CASH", 1 / 2)]

/-- The final state actually reached from `c1Init`: four capping
adjustments interleaved with three normalizations, no violation left, and
iteration count at the ceiling. -/
def c1Final : PortfolioState :=
  { holdings := [("AAPL", 1 / 4), ("CASH", 32 / 43)]
    violations := []
    iteration_count := 5
    adjustments_made :=
      [Adjustment.reduced "AAPL" (1 / 2) (1 / 4), Adjustment.normalized,
       Adjustment.reduced "AAPL" (1 / 3) (1 / 4), Adjustment.normalized,
       Adjustment.reduced "AAPL" (3 / 11) (1 / 4), Adjustment.normalized,
       Adjustment.reduced "AAPL" (11 / 43) (1 / 4)]
    status := "checking" }

/-- The final state of the run on the empty portfolio `{}`: every pass
reports the cash-reserve and sum violations, every adjustment pass appends
only the (vacuous) normalization note, and the iteration ceiling ends the
run — no step ever raises. -/
def c6EmptyFinal : PortfolioState :=
  { holdings := []
    violations := [Violation.cash_reserve 0, Violation.sum_constraint 0]
    iteration_count := 5
    adjustments_made :=
      [Adjustment.normalized, Adjustment.normalized,
       Adjustment.normalized, Adjustment.normalized]
    status := "checking" }

/-- A pending approved-analysis trade state, as `submit_trade` stores it. -/
def sampleTrade : TradeState :=
  { ticker := "AAPL"
    quantity := 100
    price := 150
    trade_type := "BUY"
    analysis := TradeAnalysis.report "BUY" "AAPL" 100 150
    human_decision := "pending"
    execution_result := TradeResult.empty
    thread_id := "t1" }

/-! ## Basic lemmas about the step functions -/

theorem check_constraints_holdings (s : PortfolioState) :
    (check_constraints s).holdings = s.holdings := rfl

theorem check_constraints_adjustments (s : PortfolioState) :
    (check_constraints s).adjustments_made = s.adjustments_made := rfl

theorem check_constraints_iteration (s : PortfolioState) :
    (check_constraints s).iteration_count = s.iteration_count + 1 := rfl

theorem adjust_portfolio_ok_frame (s s' : PortfolioState)
    (h : adjust_portfolio s = .ok s') :
    s'.violations = s.violations ∧ s'.iteration_count = s.iteration_count := by
  unfold adjust_portfolio at h
  cases hc : capPositions s.violations s.holdings [] with
  | error e => rw [hc] at h; exact Except.noConfusion h
  | ok capped =>
    rw [hc] at h
    simp only at h
    cases hn : normalizeHoldings (fixCash s.violations capped.1 capped.2).1
        (fixCash s.violations capped.1 capped.2).2 with
    | error e => rw [hn] at h; exact Except.noConfusion h
    | ok normed =>
      rw [hn] at h
      simp only [Except.ok.injEq] at h
      subst h
      exact ⟨rfl, rfl⟩

theorem should_continue_iteration_cases (s : PortfolioState) :
    should_continue_iteration s = "max_iterations" ∨
    should_continue_iteration s = "satisfied" ∨
    should_continue_iteration s = "adjust" := by
  unfold should_continue_iteration
  split
  · exact Or.inl rfl
  · split
    · exact Or.inr (Or.inl rfl)
    · exact Or.inr (Or.inr rfl)

theorem should_continue_iteration_adjust_bound (s : PortfolioState)
    (h : should_continue_iteration s = "adjust") :
    s.iteration_count < MAX_ITERATIONS := by
  unfold should_continue_iteration at h
  split at h
  · exact absurd h (by decide)
  · omega

/-- Helper: after deleting every binding of `thread_id`, a lookup fails. -/
theorem find?_filter_ne_none (l : PendingStore) (tid : String) :
    (l.filter (fun p => p.1 != tid)).find? (fun p => p.1 == tid) = none := by
  rw [List.find?_eq_none]
  intro x hx
  have hmem := List.of_mem_filter hx
  simp only [bne_iff_ne, ne_eq, decide_eq_true_eq] at hmem
  simpa using hmem

/-- C4: every router returns a label that is a member of the edge map
declared for it at `add_conditional_edges` time, so the unroutable-label
branch of the engine is unreachable: `should_continue_iteration` lands in
`{"adjust", "satisfied", "max_iterations"}`, `should_execute` in
`{"execute", "cancel"}`, and `route_to_analysis` in
`{"equity", "bond", "alternative"}`. -/
theorem routers_return_declared_labels :
    (∀ s : PortfolioState, should_continue_iteration s ∈
      (["adjust", "satisfied", "max_iterations"] : List String)) ∧
    (∀ s : TradeState, should_execute s ∈
      (["execute", "cancel"] : List String)) ∧
    (∀ s : InvestmentState, route_to_analysis s ∈
      (["equity", "bond", "alternative"] : List String)) := by
  refine ⟨fun s => ?_, fun s => ?_, fun s => ?_⟩
  · unfold should_continue_iteration
    split
    · simp
    · split <;> simp
  · unfold should_execute
    split
    · simp
    · split <;> simp
  · unfold route_to_analysis
    dsimp only
    split
    · simp
    · split <;> simp

/-- C5: each step function carries over every state field it does not
mention: `check_constraints` keeps `holdings` and `adjustments_made`,
`adjust_portfolio` keeps `violations` and `iteration_count` whenever it
returns (rather than raising), and `analyze_trade` keeps `ticker`,
`quantity`, `price`, `trade_type`, `execution_result` and `thread_id`. -/
theorem steps_frame_unmentioned_fields :
    (∀ s : PortfolioState,
      (check_constraints s).holdings = s.holdings ∧
      (check_constraints s).adjustments_made = s.adjustments_made) ∧
    (∀ s s' : PortfolioState, adjust_portfolio s = .ok s' →
      s'.violations = s.violations ∧ s'.iteration_count = s.iteration_count) ∧
    (∀ s : TradeState,
      (analyze_trade s).ticker = s.ticker ∧
      (analyze_trade s).quantity = s.quantity ∧
      (analyze_trade s).price = s.price ∧
      (analyze_trade s).trade_type = s.trade_type ∧
      (analyze_trade s).execution_result = s.execution_result ∧
      (analyze_trade s).thread_id = s.thread_id) :=
  ⟨fun _ => ⟨rfl, rfl⟩,
   fun s s' h => adjust_portfolio_ok_frame s s' h,
   fun _ => ⟨rfl, rfl, rfl, rfl, rfl, rfl⟩⟩

/-- Witness for C5 at a concrete state on which `adjust_portfolio`
returns. -/
theorem steps_frame_unmentioned_fields_witness :
    adjust_portfolio
        ⟨[("AAPL", 1 / 4), ("CASH", 3 / 4)], [], 1, [], "checking"⟩ =
      .ok ⟨[("AAPL", 1 / 4), ("CASH", 3 / 4)], [], 1, [], "adjusting"⟩ ∧
    ((⟨[("AAPL", 1 / 4), ("CASH", 3 / 4)], [], 1, [], "adjusting"⟩ :
        PortfolioState).violations =
      (⟨[("AAPL", 1 / 4), ("CASH", 3 / 4)], [], 1, [], "checking"⟩ :
        PortfolioState).violations ∧
     (⟨[("AAPL", 1 / 4), ("CASH", 3 / 4)], [], 1, [], "adjusting"⟩ :
        PortfolioState).iteration_count =
      (⟨[("AAPL", 1 / 4), ("CASH", 3 / 4)], [], 1, [], "checking"⟩ :
        PortfolioState).iteration_count) :=
  ⟨by simp [adjust_portfolio, capPositions, fixCash, normalizeHoldings,
      dictSum, dictGet, dictMem, dictSet, pyAbs, MIN_CASH_RESERVE,
      MAX_POSITION_SIZE, List.find?, List.filterMap, List.any,
      List.filter] <;> norm_num,
   steps_frame_unmentioned_fields.2.1 _ _
     (by simp [adjust_portfolio, capPositions, fixCash, normalizeHoldings,
        dictSum, dictGet, dictMem, dictSet, pyAbs, MIN_CASH_RESERVE,
        MAX_POSITION_SIZE, List.find?, List.filterMap, List.any,
        List.filter] <;> norm_num)⟩

/-- C2: resuming a pending trade behaves exactly as re-entering the
compiled graph at the suspended `human_approval` step with the human
decision merged into the saved state: for every thread present in the
pending store, `approve_trade` returns the `execution_result` produced by
running `human_approval`, its `should_execute` router and the routed
terminal step on the merged state, and likewise `reject_trade` with the
`"rejected"` decision. -/
theorem resume_reenters_suspended_step :
    ∀ (store : PendingStore) (thread_id order_id k : String)
      (st : TradeState),
      store.find? (fun p => p.1 == thread_id) = some (k, st) →
      (approve_trade order_id store thread_id).1 =
        .inr (resume_from_human_approval order_id
          { st with human_decision := "approved" }).execution_result ∧
      (reject_trade store thread_id).1 =
        .inr (resume_from_human_approval order_id
          { st with human_decision := "rejected" }).execution_result := by
  intro store tid oid k st hfind
  constructor
  · unfold approve_trade
    rw [hfind]
    rfl
  · unfold reject_trade
    rw [hfind]
    rfl

/-- Witness for C2 on a one-entry pending store. -/
theorem resume_reenters_suspended_step_witness :
    ([("t1", sampleTrade)] : PendingStore).find? (fun p => p.1 == "t1") =
      some ("t1", sampleTrade) ∧
    ((approve_trade "A1B2C3D4" [("t1", sampleTrade)] "t1").1 =
      .inr (resume_from_human_approval "A1B2C3D4"
        { sampleTrade with human_decision := "approved" }).execution_result ∧
     (reject_trade [("t1", sampleTrade)] "t1").1 =
      .inr (resume_from_human_approval "A1B2C3D4"
        { sampleTrade with human_decision := "rejected" }).execution_result) :=
  ⟨by rfl,
   resume_reenters_suspended_step [("t1", sampleTrade)] "t1" "A1B2C3D4"
     "t1" sampleTrade (by rfl)⟩

/-- C10: `approve_trade` and `reject_trade` are one-shot: an absent thread
id yields the fixed not-found message and leaves the store unchanged, and a
present thread id has its entry removed before returning, so a second call
with the same id yields the not-found message. -/
theorem pending_store_one_shot :
    ∀ (store : PendingStore) (thread_id order_id : String),
      (store.find? (fun p => p.1 == thread_id) = none →
        approve_trade order_id store thread_id = (.inl noPendingMsg, store) ∧
        reject_trade store thread_id = (.inl noPendingMsg, store)) ∧
      (∀ (k : String) (st : TradeState),
        store.find? (fun p => p.1 == thread_id) = some (k, st) →
        (approve_trade order_id store thread_id).2.find?
            (fun p => p.1 == thread_id) = none ∧
        (approve_trade order_id
            (approve_trade order_id store thread_id).2 thread_id).1 =
          .inl noPendingMsg ∧
        (reject_trade store thread_id).2.find?
            (fun p => p.1 == thread_id) = none ∧
        (reject_trade (reject_trade store thread_id).2 thread_id).1 =
          .inl noPendingMsg) := by
  intro store tid oid
  constructor
  · intro hnone
    constructor
    · unfold approve_trade
      rw [hnone]
    · unfold reject_trade
      rw [hnone]
  · intro k st hfind
    have happrove : (approve_trade oid store tid).2 =
        store.filter (fun p => p.1 != tid) := by
      unfold approve_trade
      rw [hfind]
    have hreject : (reject_trade store tid).2 =
        store.filter (fun p => p.1 != tid) := by
      unfold reject_trade
      rw [hfind]
    refine ⟨?_, ?_, ?_, ?_⟩
    · rw [happrove]
      exact find?_filter_ne_none store tid
    · rw [happrove]
      unfold approve_trade
      rw [find?_filter_ne_none store tid]
    · rw [hreject]
      exact find?_filter_ne_none store tid
    · rw [hreject]
      unfold reject_trade
      rw [find?_filter_ne_none store tid]

/-- Witness for C10: both the absent-id and the present-id hypotheses at a
concrete store. -/
theorem pending_store_one_shot_witness :
    (([("t1", sampleTrade)] : PendingStore).find? (fun p => p.1 == "t2") =
        none ∧
      approve_trade "A1B2C3D4" [("t1", sampleTrade)] "t2" =
        (.inl noPendingMsg, [("t1", sampleTrade)]) ∧
      reject_trade [("t1", sampleTrade)] "t2" =
        (.inl noPendingMsg, [("t1", sampleTrade)])) ∧
    (([("t1", sampleTrade)] : PendingStore).find? (fun p => p.1 == "t1") =
        some ("t1", sampleTrade) ∧
      (approve_trade "A1B2C3D4"
          (approve_trade "A1B2C3D4" [("t1", sampleTrade)] "t1").2 "t1").1 =
        .inl noPendingMsg) :=
  ⟨⟨by rfl,
    (pending_store_one_shot [("t1", sampleTrade)] "t2" "A1B2C3D4").1
      (by rfl)⟩,
   ⟨by rfl,
    ((pending_store_one_shot [("t1", sampleTrade)] "t1" "A1B2C3D4").2
      "t1" sampleTrade (by rfl)).2.1⟩⟩

/-- Counterexample to C7 as stated: `execute_trade` interpolates the fresh
`uuid4` order id drawn during the call into `execution_result`, so two
evaluations on the same approved state (which draw distinct ids) do not
produce identical results. -/
theorem step_purity_counterexample :
    execute_trade "A1B2C3D4"
        { sampleTrade with human_decision := "approved" } ≠
      execute_trade "E5F60718"
        { sampleTrade with human_decision := "approved" } := by
  decide

/-- C7 (amended): every step function is a deterministic function of its
state and the external draws it consumes; the only draws are
`execute_trade`'s fresh order id, which is only consumed on approved
decisions, and the LLM reply consumed by `call_model_with_tools`.  On
non-approved decisions `execute_trade` is independent of the draw,
`human_approval` is the identity, and `call_model_with_tools` depends on
the reply alone. -/
theorem steps_pure_except_external_draws :
    (∀ (s : TradeState) (oid oid' : String), s.human_decision ≠ "approved" →
      execute_trade oid s = execute_trade oid' s) ∧
    (∀ s : TradeState, human_approval s = s) ∧
    (∀ (s : AgentState) (r r' : ChatMessage),
      call_model_with_tools r s = call_model_with_tools r' s → r = r') := by
  refine ⟨?_, fun s => rfl, ?_⟩
  · intro s oid oid' hdec
    unfold execute_trade
    simp only [if_neg hdec]
  · intro s r r' h
    simpa [call_model_with_tools] using h

/-- Witness for the amended C7 at concrete states. -/
theorem steps_pure_except_external_draws_witness :
    (sampleTrade.human_decision ≠ "approved" ∧
      execute_trade "A1B2C3D4" sampleTrade =
        execute_trade "E5F60718" sampleTrade) ∧
    (⟨"hello"⟩ : ChatMessage) = ⟨"hello"⟩ :=
  ⟨⟨by decide,
    steps_pure_except_external_draws.1 sampleTrade "A1B2C3D4" "E5F60718"
      (by decide)⟩,
   steps_pure_except_external_draws.2.2 ⟨[]⟩ ⟨"hello"⟩ ⟨"hello"⟩ rfl⟩

/-! ## Lemmas about the execution loop -/

theorem should_continue_iteration_max (s : PortfolioState)
    (h : MAX_ITERATIONS ≤ s.iteration_count) :
    should_continue_iteration s = "max_iterations" := by
  unfold should_continue_iteration
  rw [if_pos h]

theorem should_continue_iteration_satisfied (s : PortfolioState)
    (h1 : s.iteration_count < MAX_ITERATIONS) (h2 : s.violations = []) :
    should_continue_iteration s = "satisfied" := by
  unfold should_continue_iteration
  rw [if_neg (not_le.2 h1), if_pos h2]

theorem runCyclesFrom_adjust (fuel : ℕ) (s s1 s2 : PortfolioState) (n : ℕ)
    (hcheck : check_constraints s = s1)
    (hroute : should_continue_iteration s1 = "adjust")
    (hadj : adjust_portfolio s1 = .ok s2) :
    runCyclesFrom (fuel + 1) s n = runCyclesFrom fuel s2 (n + 2) := by
  unfold runCyclesFrom
  simp only [hcheck, hroute, hadj]
  rw [← runCyclesFrom.eq_def]

theorem runCyclesFrom_adjust_error (fuel : ℕ) (s s1 : PortfolioState)
    (e : PyError) (n : ℕ)
    (hcheck : check_constraints s = s1)
    (hroute : should_continue_iteration s1 = "adjust")
    (hadj : adjust_portfolio s1 = .error e) :
    runCyclesFrom (fuel + 1) s n = (.stepError e, n + 2) := by
  unfold runCyclesFrom
  simp only [hcheck, hroute, hadj]

theorem runCyclesFrom_max (fuel : ℕ) (s s1 : PortfolioState) (n : ℕ)
    (hcheck : check_constraints s = s1)
    (hroute : should_continue_iteration s1 = "max_iterations") :
    runCyclesFrom (fuel + 1) s n = (.finished s1 "max_iterations", n + 1) := by
  unfold runCyclesFrom
  simp only [hcheck, hroute]
  rfl

theorem runCyclesFrom_satisfied (fuel : ℕ) (s s1 : PortfolioState) (n : ℕ)
    (hcheck : check_constraints s = s1)
    (hroute : should_continue_iteration s1 = "satisfied") :
    runCyclesFrom (fuel + 1) s n = (.finished s1 "satisfied", n + 1) := by
  unfold runCyclesFrom
  simp only [hcheck, hroute]
  rfl

/-- Helper: with fuel exceeding the remaining iteration budget, the run
never hits the engine step ceiling. -/
theorem runCycles_no_step_limit :
    ∀ (fuel : ℕ) (s : PortfolioState) (n : ℕ),
      (MAX_ITERATIONS - s.iteration_count).toNat < fuel →
      (runCyclesFrom fuel s n).1.isStepLimit = false := by
  intro fuel
  induction fuel with
  | zero => intro s n h; exact absurd h (Nat.not_lt_zero _)
  | succ fuel ih =>
    intro s n h
    unfold runCyclesFrom
    dsimp only
    rcases should_continue_iteration_cases (check_constraints s)
      with hr | hr | hr
    · simp only [hr]
      rfl
    · simp only [hr]
      rfl
    · simp only [hr]
      cases hadj : adjust_portfolio (check_constraints s) with
      | error e => rfl
      | ok s2 =>
        apply ih
        have hcount : s2.iteration_count = s.iteration_count + 1 := by
          rw [(adjust_portfolio_ok_frame _ _ hadj).2,
            check_constraints_iteration]
        have hlt := should_continue_iteration_adjust_bound _ hr
        rw [check_constraints_iteration] at hlt
        rw [hcount]
        unfold MAX_ITERATIONS at h hlt ⊢
        omega

/-- Helper: a finished run carries one of the two terminal labels. -/
theorem runCycles_finished_label :
    ∀ (fuel : ℕ) (s : PortfolioState) (n : ℕ) (f : PortfolioState)
      (l : String),
      (runCyclesFrom fuel s n).1 = .finished f l →
      l = "satisfied" ∨ l = "max_iterations" := by
  intro fuel
  induction fuel with
  | zero =>
    intro s n f l h
    simp [runCyclesFrom] at h
  | succ fuel ih =>
    intro s n f l h
    unfold runCyclesFrom at h
    dsimp only at h
    rcases should_continue_iteration_cases (check_constraints s)
      with hr | hr | hr
    · rw [hr] at h
      have h2 : RunOutcome.finished (check_constraints s) "max_iterations" =
          .finished f l := h
      injection h2 with hf hl
      exact Or.inr hl.symm
    · rw [hr] at h
      have h2 : RunOutcome.finished (check_constraints s) "satisfied" =
          .finished f l := h
      injection h2 with hf hl
      exact Or.inl hl.symm
    · simp only [hr] at h
      cases hadj : adjust_portfolio (check_constraints s) with
      | error e => rw [hadj] at h; simp at h
      | ok s2 =>
        rw [hadj] at h
        exact ih s2 (n + 2) f l h

/-- Helper: full trace of the run on `{"AAPL": 0.50, "CASH": 0.50}`.  Four
passes re-cap AAPL (normalization pushes it back over the limit three
times); the fifth check finds no violation but the router's iteration-limit
test fires first, ending the run with label `"max_iterations"` after nine
node executions. -/
theorem c1Run_eval :
    runCyclesFrom 25 c1Init 0 = (.finished c1Final "max_iterations", 9) := by
  have hc1 : check_constraints c1Init =
      ⟨[("AAPL", 1 / 2), ("CASH", 1 / 2)],
       [Violation.position_size "AAPL" (1 / 2)], 1, [], "checking"⟩ := by
    simp [check_constraints, positionViolations, dictGet, dictSum, dictMem,
      pyAbs, c1Init, initialPortfolioState, MAX_POSITION_SIZE,
      MIN_CASH_RESERVE, List.find?, List.filterMap] <;> norm_num
  have hr1 : should_continue_iteration
      ⟨[("AAPL", 1 / 2), ("CASH", 1 / 2)],
       [Violation.position_size "AAPL" (1 / 2)], 1, [], "checking"⟩ =
      "adjust" := by
    simp [should_continue_iteration, MAX_ITERATIONS]
  have ha1 : adjust_portfolio
      ⟨[("AAPL", 1 / 2), ("CASH", 1 / 2)],
       [Violation.position_size "AAPL" (1 / 2)], 1, [], "checking"⟩ =
      .ok ⟨[("AAPL", 1 / 3), ("CASH", 2 / 3)],
        [Violation.position_size "AAPL" (1 / 2)], 1,
        [Adjustment.reduced "AAPL" (1 / 2) (1 / 4), Adjustment.normalized],
        "adjusting"⟩ := by
    simp [adjust_portfolio, capPositions, fixCash, normalizeHoldings,
      dictSum, dictGet, dictMem, dictSet, pyAbs, MIN_CASH_RESERVE,
      MAX_POSITION_SIZE, List.find?, List.filterMap, List.any,
      List.filter] <;> norm_num
  have hc2 : check_constraints
      ⟨[("AAPL", 1 / 3), ("CASH", 2 / 3)],
       [Violation.position_size "AAPL" (1 / 2)], 1,
       [Adjustment.reduced "AAPL" (1 / 2) (1 / 4), Adjustment.normalized],
       "adjusting"⟩ =
      ⟨[("AAPL", 1 / 3), ("CASH", 2 / 3)],
       [Violation.position_size "AAPL" (1 / 3)], 2,
       [Adjustment.reduced "AAPL" (1 / 2) (1 / 4), Adjustment.normalized],
       "checking"⟩ := by
    simp [check_constraints, positionViolations, dictGet, dictSum, dictMem,
      pyAbs, MAX_POSITION_SIZE, MIN_CASH_RESERVE, List.find?,
      List.filterMap] <;> norm_num
  have hr2 : should_continue_iteration
      ⟨[("AAPL", 1 / 3), ("CASH", 2 / 3)],
       [Violation.position_size "AAPL" (1 / 3)], 2,
       [Adjustment.reduced "AAPL" (1 / 2) (1 / 4), Adjustment.normalized],
       "checking"⟩ = "adjust" := by
    simp [should_continue_iteration, MAX_ITERATIONS]
  have ha2 : adjust_portfolio
      ⟨[("AAPL", 1 / 3), ("CASH", 2 / 3)],
       [Violation.position_size "AAPL" (1 / 3)], 2,
       [Adjustment.reduced "AAPL" (1 / 2) (1 / 4), Adjustment.normalized],
       "checking"⟩ =
      .ok ⟨[("AAPL", 3 / 11), ("CASH", 8 / 11)],
        [Violation.position_size "AAPL" (1 / 3)], 2,
        [Adjustment.reduced "AAPL" (1 / 2) (1 / 4), Adjustment.normalized,
         Adjustment.reduced "AAPL" (1 / 3) (1 / 4), Adjustment.normalized],
        "adjusting"⟩ := by
    simp [adjust_portfolio, capPositions, fixCash, normalizeHoldings,
      dictSum, dictGet, dictMem, dictSet, pyAbs, MIN_CASH_RESERVE,
      MAX_POSITION_SIZE, List.find?, List.filterMap, List.any,
      List.filter] <;> norm_num
  have hc3 : check_constraints
      ⟨[("AAPL", 3 / 11), ("CASH", 8 / 11)],
       [Violation.position_size "AAPL" (1 / 3)], 2,
       [Adjustment.reduced "AAPL" (1 / 2) (1 / 4), Adjustment.normalized,
        Adjustment.reduced "AAPL" (1 / 3) (1 / 4), Adjustment.normalized],
       "adjusting"⟩ =
      ⟨[("AAPL", 3 / 11), ("CASH", 8 / 11)],
       [Violation.position_size "AAPL" (3 / 11)], 3,
       [Adjustment.reduced "AAPL" (1 / 2) (1 / 4), Adjustment.normalized,
        Adjustment.reduced "AAPL" (1 / 3) (1 / 4), Adjustment.normalized],
       "checking"⟩ := by
    simp [check_constraints, positionViolations, dictGet, dictSum, dictMem,
      pyAbs, MAX_POSITION_SIZE, MIN_CASH_RESERVE, List.find?,
      List.filterMap] <;> norm_num
  have hr3 : should_continue_iteration
      ⟨[("AAPL", 3 / 11), ("CASH", 8 / 11)],
       [Violation.position_size "AAPL" (3 / 11)], 3,
       [Adjustment.reduced "AAPL" (1 / 2) (1 / 4), Adjustment.normalized,
        Adjustment.reduced "AAPL" (1 / 3) (1 / 4), Adjustment.normalized],
       "checking"⟩ = "adjust" := by
    simp [should_continue_iteration, MAX_ITERATIONS]
  have ha3 : adjust_portfolio
      ⟨[("AAPL", 3 / 11), ("CASH", 8 / 11)],
       [Violation.position_size "AAPL" (3 / 11)], 3,
       [Adjustment.reduced "AAPL" (1 / 2) (1 / 4), Adjustment.normalized,
        Adjustment.reduced "AAPL" (1 / 3) (1 / 4), Adjustment.normalized],
       "checking"⟩ =
      .ok ⟨[("AAPL", 11 / 43), ("CASH", 32 / 43)],
        [Violation.position_size "AAPL" (3 / 11)], 3,
        [Adjustment.reduced "AAPL" (1 / 2) (1 / 4), Adjustment.normalized,
         Adjustment.reduced "AAPL" (1 / 3) (1 / 4), Adjustment.normalized,
         Adjustment.reduced "AAPL" (3 / 11) (1 / 4), Adjustment.normalized],
        "adjusting"⟩ := by
    simp [adjust_portfolio, capPositions, fixCash, normalizeHoldings,
      dictSum, dictGet, dictMem, dictSet, pyAbs, MIN_CASH_RESERVE,
      MAX_POSITION_SIZE, List.find?, List.filterMap, List.any,
      List.filter] <;> norm_num
  have hc4 : check_constraints
      ⟨[("AAPL", 11 / 43), ("CASH", 32 / 43)],
       [Violation.position_size "AAPL" (3 / 11)], 3,
       [Adjustment.reduced "AAPL" (1 / 2) (1 / 4), Adjustment.normalized,
        Adjustment.reduced "AAPL" (1 / 3) (1 / 4), Adjustment.normalized,
        Adjustment.reduced "AAPL" (3 / 11) (1 / 4), Adjustment.normalized],
       "adjusting"⟩ =
      ⟨[("AAPL", 11 / 43), ("CASH", 32 / 43)],
       [Violation.position_size "AAPL" (11 / 43)], 4,
       [Adjustment.reduced "AAPL" (1 / 2) (1 / 4), Adjustment.normalized,
        Adjustment.reduced "AAPL" (1 / 3) (1 / 4), Adjustment.normalized,
        Adjustment.reduced "AAPL" (3 / 11) (1 / 4), Adjustment.normalized],
       "checking"⟩ := by
    simp [check_constraints, positionViolations, dictGet, dictSum, dictMem,
      pyAbs, MAX_POSITION_SIZE, MIN_CASH_RESERVE, List.find?,
      List.filterMap] <;> norm_num
  have hr4 : should_continue_iteration
      ⟨[("AAPL", 11 / 43), ("CASH", 32 / 43)],
       [Violation.position_size "AAPL" (11 / 43)], 4,
       [Adjustment.reduced "AAPL" (1 / 2) (1 / 4), Adjustment.normalized,
        Adjustment.reduced "AAPL" (1 / 3) (1 / 4), Adjustment.normalized,
        Adjustment.reduced "AAPL" (3 / 11) (1 / 4), Adjustment.normalized],
       "checking"⟩ = "adjust" := by
    simp [should_continue_iteration, MAX_ITERATIONS]
  have ha4 : adjust_portfolio
      ⟨[("AAPL", 11 / 43), ("CASH", 32 / 43)],
       [Violation.position_size "AAPL" (11 / 43)], 4,
       [Adjustment.reduced "AAPL" (1 / 2) (1 / 4), Adjustment.normalized,
        Adjustment.reduced "AAPL" (1 / 3) (1 / 4), Adjustment.normalized,
        Adjustment.reduced "AAPL" (3 / 11) (1 / 4), Adjustment.normalized],
       "checking"⟩ =
      .ok ⟨[("AAPL", 1 / 4), ("CASH", 32 / 43)],
        [Violation.position_size "AAPL" (11 / 43)], 4,
        [Adjustment.reduced "AAPL" (1 / 2) (1 / 4), Adjustment.normalized,
         Adjustment.reduced "AAPL" (1 / 3) (1 / 4), Adjustment.normalized,
         Adjustment.reduced "AAPL" (3 / 11) (1 / 4), Adjustment.normalized,
         Adjustment.reduced "AAPL" (11 / 43) (1 / 4)],
        "adjusting"⟩ := by
    simp [adjust_portfolio, capPositions, fixCash, normalizeHoldings,
      dictSum, dictGet, dictMem, dictSet, pyAbs, MIN_CASH_RESERVE,
      MAX_POSITION_SIZE, List.find?, List.filterMap, List.any,
      List.filter] <;> norm_num
  have hc5 : check_constraints
      ⟨[("AAPL", 1 / 4), ("CASH", 32 / 43)],
       [Violation.position_size "AAPL" (11 / 43)], 4,
       [Adjustment.reduced "AAPL" (1 / 2) (1 / 4), Adjustment.normalized,
        Adjustment.reduced "AAPL" (1 / 3) (1 / 4), Adjustment.normalized,
        Adjustment.reduced "AAPL" (3 / 11) (1 / 4), Adjustment.normalized,
        Adjustment.reduced "AAPL" (11 / 43) (1 / 4)],
       "adjusting"⟩ = c1Final := by
    simp [check_constraints, positionViolations, dictGet, dictSum, dictMem,
      pyAbs, MAX_POSITION_SIZE, MIN_CASH_RESERVE, c1Final, List.find?,
      List.filterMap] <;> norm_num
  have hr5 : should_continue_iteration c1Final = "max_iterations" := by
    simp [should_continue_iteration, MAX_ITERATIONS, c1Final]
  rw [show (25 : ℕ) = 24 + 1 from rfl,
    runCyclesFrom_adjust 24 _ _ _ _ hc1 hr1 ha1,
    show (24 : ℕ) = 23 + 1 from rfl,
    runCyclesFrom_adjust 23 _ _ _ _ hc2 hr2 ha2,
    show (23 : ℕ) = 22 + 1 from rfl,
    runCyclesFrom_adjust 22 _ _ _ _ hc3 hr3 ha3,
    show (22 : ℕ) = 21 + 1 from rfl,
    runCyclesFrom_adjust 21 _ _ _ _ hc4 hr4 ha4,
    show (21 : ℕ) = 20 + 1 from rfl,
    runCyclesFrom_max 20 _ _ _ hc5 hr5]

/-- Helper: full trace of the run on the empty portfolio `{}`.  Every check
reports the cash-reserve and sum violations; every adjustment's
normalization loop iterates over zero tickers (no division occurs), so no
step raises, and the iteration ceiling ends the run. -/
theorem emptyRun_eval :
    runCyclesFrom 25 (initialPortfolioState []) 0 =
      (.finished c6EmptyFinal "max_iterations", 9) := by
  have hc1 : check_constraints (initialPortfolioState []) =
      ⟨[], [Violation.cash_reserve 0, Violation.sum_constraint 0], 1, [],
       "checking"⟩ := by
    simp [check_constraints, positionViolations, dictGet, dictSum, dictMem,
      pyAbs, initialPortfolioState, MAX_POSITION_SIZE, MIN_CASH_RESERVE,
      List.find?, List.filterMap] <;> norm_num
  have hr1 : should_continue_iteration
      ⟨[], [Violation.cash_reserve 0, Violation.sum_constraint 0], 1, [],
       "checking"⟩ = "adjust" := by
    simp [should_continue_iteration, MAX_ITERATIONS]
  have ha1 : adjust_portfolio
      ⟨[], [Violation.cash_reserve 0, Violation.sum_constraint 0], 1, [],
       "checking"⟩ =
      .ok ⟨[], [Violation.cash_reserve 0, Violation.sum_constraint 0], 1,
        [Adjustment.normalized], "adjusting"⟩ := by
    simp [adjust_portfolio, capPositions, fixCash, normalizeHoldings,
      dictSum, dictGet, dictMem, dictSet, pyAbs, MIN_CASH_RESERVE,
      MAX_POSITION_SIZE, List.find?, List.filterMap, List.any,
      List.filter] <;> norm_num
  have hc2 : check_constraints
      ⟨[], [Violation.cash_reserve 0, Violation.sum_constraint 0], 1,
       [Adjustment.normalized], "adjusting"⟩ =
      ⟨[], [Violation.cash_reserve 0, Violation.sum_constraint 0], 2,
       [Adjustment.normalized], "checking"⟩ := by
    simp [check_constraints, positionViolations, dictGet, dictSum, dictMem,
      pyAbs, MAX_POSITION_SIZE, MIN_CASH_RESERVE, List.find?,
      List.filterMap] <;> norm_num
  have hr2 : should_continue_iteration
      ⟨[], [Violation.cash_reserve 0, Violation.sum_constraint 0], 2,
       [Adjustment.normalized], "checking"⟩ = "adjust" := by
    simp [should_continue_iteration, MAX_ITERATIONS]
  have ha2 : adjust_portfolio
      ⟨[], [Violation.cash_reserve 0, Violation.sum_constraint 0], 2,
       [Adjustment.normalized], "checking"⟩ =
      .ok ⟨[], [Violation.cash_reserve 0, Violation.sum_constraint 0], 2,
        [Adjustment.normalized, Adjustment.normalized], "adjusting"⟩ := by
    simp [adjust_portfolio, capPositions, fixCash, normalizeHoldings,
      dictSum, dictGet, dictMem, dictSet, pyAbs, MIN_CASH_RESERVE,
      MAX_POSITION_SIZE, List.find?, List.filterMap, List.any,
      List.filter] <;> norm_num
  have hc3 : check_constraints
      ⟨[], [Violation.cash_reserve 0, Violation.sum_constraint 0], 2,
       [Adjustment.normalized, Adjustment.normalized], "adjusting"⟩ =
      ⟨[], [Violation.cash_reserve 0, Violation.sum_constraint 0], 3,
       [Adjustment.normalized, Adjustment.normalized], "checking"⟩ := by
    simp [check_constraints, positionViolations, dictGet, dictSum, dictMem,
      pyAbs, MAX_POSITION_SIZE, MIN_CASH_RESERVE, List.find?,
      List.filterMap] <;> norm_num
  have hr3 : should_continue_iteration
      ⟨[], [Violation.cash_reserve 0, Violation.sum_constraint 0], 3,
       [Adjustment.normalized, Adjustment.normalized], "checking"⟩ =
      "adjust" := by
    simp [should_continue_iteration, MAX_ITERATIONS]
  have ha3 : adjust_portfolio
      ⟨[], [Violation.cash_reserve 0, Violation.sum_constraint 0], 3,
       [Adjustment.normalized, Adjustment.normalized], "checking"⟩ =
      .ok ⟨[], [Violation.cash_reserve 0, Violation.sum_constraint 0], 3,
        [Adjustment.normalized, Adjustment.normalized,
         Adjustment.normalized], "adjusting"⟩ := by
    simp [adjust_portfolio, capPositions, fixCash, normalizeHoldings,
      dictSum, dictGet, dictMem, dictSet, pyAbs, MIN_CASH_RESERVE,
      MAX_POSITION_SIZE, List.find?, List.filterMap, List.any,
      List.filter] <;> norm_num
  have hc4 : check_constraints
      ⟨[], [Violation.cash_reserve 0, Violation.sum_constraint 0], 3,
       [Adjustment.normalized, Adjustment.normalized, Adjustment.normalized],
       "adjusting"⟩ =
      ⟨[], [Violation.cash_reserve 0, Violation.sum_constraint 0], 4,
       [Adjustment.normalized, Adjustment.normalized, Adjustment.normalized],
       "checking"⟩ := by
    simp [check_constraints, positionViolations, dictGet, dictSum, dictMem,
      pyAbs, MAX_POSITION_SIZE, MIN_CASH_RESERVE, List.find?,
      List.filterMap] <;> norm_num
  have hr4 : should_continue_iteration
      ⟨[], [Violation.cash_reserve 0, Violation.sum_constraint 0], 4,
       [Adjustment.normalized, Adjustment.normalized, Adjustment.normalized],
       "checking"⟩ = "adjust" := by
    simp [should_continue_iteration, MAX_ITERATIONS]
  have ha4 : adjust_portfolio
      ⟨[], [Violation.cash_reserve 0, Violation.sum_constraint 0], 4,
       [Adjustment.normalized, Adjustment.normalized, Adjustment.normalized],
       "checking"⟩ =
      .ok ⟨[], [Violation.cash_reserve 0, Violation.sum_constraint 0], 4,
        [Adjustment.normalized, Adjustment.normalized, Adjustment.normalized,
         Adjustment.normalized], "adjusting"⟩ := by
    simp [adjust_portfolio, capPositions, fixCash, normalizeHoldings,
      dictSum, dictGet, dictMem, dictSet, pyAbs, MIN_CASH_RESERVE,
      MAX_POSITION_SIZE, List.find?, List.filterMap, List.any,
      List.filter] <;> norm_num
  have hc5 : check_constraints
      ⟨[], [Violation.cash_reserve 0, Violation.sum_constraint 0], 4,
       [Adjustment.normalized, Adjustment.normalized, Adjustment.normalized,
        Adjustment.normalized], "adjusting"⟩ = c6EmptyFinal := by
    simp [check_constraints, positionViolations, dictGet, dictSum, dictMem,
      pyAbs, MAX_POSITION_SIZE, MIN_CASH_RESERVE, c6EmptyFinal, List.find?,
      List.filterMap] <;> norm_num
  have hr5 : should_continue_iteration c6EmptyFinal = "max_iterations" := by
    simp [should_continue_iteration, MAX_ITERATIONS, c6EmptyFinal]
  rw [show (25 : ℕ) = 24 + 1 from rfl,
    runCyclesFrom_adjust 24 _ _ _ _ hc1 hr1 ha1,
    show (24 : ℕ) = 23 + 1 from rfl,
    runCyclesFrom_adjust 23 _ _ _ _ hc2 hr2 ha2,
    show (23 : ℕ) = 22 + 1 from rfl,
    runCyclesFrom_adjust 22 _ _ _ _ hc3 hr3 ha3,
    show (22 : ℕ) = 21 + 1 from rfl,
    runCyclesFrom_adjust 21 _ _ _ _ hc4 hr4 ha4,
    show (21 : ℕ) = 20 + 1 from rfl,
    runCyclesFrom_max 20 _ _ _ hc5 hr5]

/-- Helper: the run on `{"AAPL": 0.0}` aborts on the second node: the
normalization loop divides the weight by the zero total, raising
`ZeroDivisionError`. -/
theorem zeroRun_eval :
    runCyclesFrom 25 (initialPortfolioState [("AAPL", 0)]) 0 =
      (.stepError .zeroDivisionError, 2) := by
  have hc1 : check_constraints (initialPortfolioState [("AAPL", 0)]) =
      ⟨[("AAPL", 0)],
       [Violation.cash_reserve 0, Violation.sum_constraint 0], 1, [],
       "checking"⟩ := by
    simp [check_constraints, positionViolations, dictGet, dictSum, dictMem,
      pyAbs, initialPortfolioState, MAX_POSITION_SIZE, MIN_CASH_RESERVE,
      List.find?, List.filterMap] <;> norm_num
  have hr1 : should_continue_iteration
      ⟨[("AAPL", 0)],
       [Violation.cash_reserve 0, Violation.sum_constraint 0], 1, [],
       "checking"⟩ = "adjust" := by
    simp [should_continue_iteration, MAX_ITERATIONS]
  have ha1 : adjust_portfolio
      ⟨[("AAPL", 0)],
       [Violation.cash_reserve 0, Violation.sum_constraint 0], 1, [],
       "checking"⟩ = .error .zeroDivisionError := by
    simp [adjust_portfolio, capPositions, fixCash, normalizeHoldings,
      dictSum, dictGet, dictMem, dictSet, pyAbs, MIN_CASH_RESERVE,
      MAX_POSITION_SIZE, List.find?, List.filterMap, List.any,
      List.filter] <;> norm_num
  rw [show (25 : ℕ) = 24 + 1 from rfl,
    runCyclesFrom_adjust_error 24 _ _ _ _ hc1 hr1 ha1]

/-- Counterexample to C1 as stated: on `{"AAPL": 0.50, "CASH": 0.50}` the
run ends with the terminal label `"max_iterations"`, not `"satisfied"` (the
router's ceiling test precedes its satisfied test and the fifth check pass
raises the count to the ceiling), four capping adjustments are applied
rather than one, and no cash-reserve adjustment ever fires. -/
theorem c1_run_counterexample :
    (runCyclesFrom INVOKE_STEP_LIMIT c1Init 0).1 =
      .finished c1Final "max_iterations" ∧
    ("max_iterations" : String) ≠ "satisfied" ∧
    Adjustment.increasedCash ∉ c1Final.adjustments_made ∧
    c1Final.adjustments_made.countP (fun a =>
      match a with
      | .reduced _ _ _ => true
      | _ => false) = 4 := by
  refine ⟨?_, by decide, ?_, ?_⟩
  · rw [show INVOKE_STEP_LIMIT = 25 from rfl, c1Run_eval]
  · simp [c1Final]
  · simp [c1Final, List.countP_cons]

/-- C1 (corrected): on `{"AAPL": 0.50, "CASH": 0.50}` the first check pass
reports exactly one `position_size` violation for AAPL; the run then caps
AAPL at 25% on four successive adjustment passes (normalization keeps
pushing it back over the limit), never applies a cash-reserve adjustment,
and ends after the fifth check pass — violations all cleared and the final
weights summing to 1 within the 1% tolerance, with AAPL capped at 25% — but
with terminal label `"max_iterations"`, because the router tests the
iteration ceiling before the satisfied condition. -/
theorem c1_run_amended :
    (check_constraints c1Init).violations =
      [Violation.position_size "AAPL" (1 / 2)] ∧
    runCyclesFrom INVOKE_STEP_LIMIT c1Init 0 =
      (.finished c1Final "max_iterations", 9) ∧
    c1Final.violations = [] ∧
    c1Final.iteration_count = MAX_ITERATIONS ∧
    pyAbs (dictSum c1Final.holdings - 1) ≤ 1 / 100 ∧
    dictGet c1Final.holdings "AAPL" 0 = MAX_POSITION_SIZE := by
  refine ⟨?_, ?_, by simp [c1Final], by simp [c1Final, MAX_ITERATIONS],
    ?_, ?_⟩
  · simp [check_constraints, positionViolations, dictGet, dictSum, dictMem,
      pyAbs, c1Init, initialPortfolioState, MAX_POSITION_SIZE,
      MIN_CASH_RESERVE, List.find?, List.filterMap] <;> norm_num
  · rw [show INVOKE_STEP_LIMIT = 25 from rfl]
    exact c1Run_eval
  · norm_num [c1Final, dictSum, pyAbs]
  · simp [c1Final, dictGet, List.find?, MAX_POSITION_SIZE] <;> norm_num

/-- Counterexample to C3 as stated: the router does not return
`"satisfied"` whenever violations are empty — at the iteration ceiling it
returns `"max_iterations"` even with no violation left. -/
theorem termination_router_counterexample :
    should_continue_iteration
      ⟨[], [], MAX_ITERATIONS, [], "checking"⟩ = "max_iterations" ∧
    ("max_iterations" : String) ≠ "satisfied" := by
  exact ⟨by simp [should_continue_iteration], by decide⟩

/-- C3 (corrected): every check pass increments `iteration_count`; the
router returns `"max_iterations"` as soon as the count reaches
`MAX_ITERATIONS`, and `"satisfied"` when violations are empty *and* the
count is still below the ceiling; consequently the run never hits the
engine step ceiling when given fuel exceeding the remaining iteration
budget, and every finished run carries one of the two terminal labels. -/
theorem cycles_workflow_terminates :
    (∀ s : PortfolioState,
      (check_constraints s).iteration_count = s.iteration_count + 1) ∧
    (∀ s : PortfolioState, MAX_ITERATIONS ≤ s.iteration_count →
      should_continue_iteration s = "max_iterations") ∧
    (∀ s : PortfolioState, s.iteration_count < MAX_ITERATIONS →
      s.violations = [] → should_continue_iteration s = "satisfied") ∧
    (∀ (fuel : ℕ) (s : PortfolioState) (n : ℕ),
      (MAX_ITERATIONS - s.iteration_count).toNat < fuel →
      (runCyclesFrom fuel s n).1.isStepLimit = false) ∧
    (∀ (fuel : ℕ) (s : PortfolioState) (n : ℕ) (f : PortfolioState)
      (l : String),
      (runCyclesFrom fuel s n).1 = .finished f l →
      l = "satisfied" ∨ l = "max_iterations") :=
  ⟨check_constraints_iteration, should_continue_iteration_max,
   should_continue_iteration_satisfied, runCycles_no_step_limit,
   runCycles_finished_label⟩

/-- Witness for the corrected C3 at concrete states. -/
theorem cycles_workflow_terminates_witness :
    (MAX_ITERATIONS ≤
        (⟨[], [], 7, [], "checking"⟩ : PortfolioState).iteration_count ∧
      should_continue_iteration ⟨[], [], 7, [], "checking"⟩ =
        "max_iterations") ∧
    ((⟨[], [], 2, [], "checking"⟩ : PortfolioState).iteration_count <
        MAX_ITERATIONS ∧
      (⟨[], [], 2, [], "checking"⟩ : PortfolioState).violations = [] ∧
      should_continue_iteration ⟨[], [], 2, [], "checking"⟩ =
        "satisfied") ∧
    ((MAX_ITERATIONS -
        (initialPortfolioState []).iteration_count).toNat < 25 ∧
      (runCyclesFrom 25 (initialPortfolioState []) 0).1.isStepLimit =
        false) ∧
    (("max_iterations" : String) = "satisfied" ∨
      ("max_iterations" : String) = "max_iterations") :=
  ⟨⟨by decide, cycles_workflow_terminates.2.1 _ (by decide)⟩,
   ⟨by decide, rfl,
    cycles_workflow_terminates.2.2.1 _ (by decide) rfl⟩,
   ⟨by decide,
    cycles_workflow_terminates.2.2.2.1 25 (initialPortfolioState []) 0
      (by decide)⟩,
   cycles_workflow_terminates.2.2.2.2 25 (initialPortfolioState []) 0
     c6EmptyFinal "max_iterations" (by rw [emptyRun_eval])⟩

/-- Counterexample to C6's premise: on the empty portfolio `{}` the
normalization loop of `adjust_portfolio` iterates over zero tickers, so no
division by zero occurs and the step returns normally; the whole run
completes through the iteration ceiling and `run_constraint_checker` takes
its success branch (formatted report and graph image), not the error pair
`(message, None)` the claim asserts. -/
theorem empty_portfolio_no_error_counterexample :
    adjust_portfolio
        ⟨[], [Violation.cash_reserve 0, Violation.sum_constraint 0], 1, [],
         "checking"⟩ =
      .ok ⟨[], [Violation.cash_reserve 0, Violation.sum_constraint 0], 1,
        [Adjustment.normalized], "adjusting"⟩ ∧
    run_constraint_checker (.ok (Json.obj [])) =
      (.success c6EmptyFinal, 9) ∧
    rccPair (fun _ => "report") (some ⟨()⟩) (.success c6EmptyFinal) =
      some ("report", some ⟨()⟩) := by
  refine ⟨?_, ?_, rfl⟩
  · simp [adjust_portfolio, capPositions, fixCash, normalizeHoldings,
      dictSum, dictGet, dictMem, dictSet, pyAbs, MIN_CASH_RESERVE,
      MAX_POSITION_SIZE, List.find?, List.filterMap, List.any,
      List.filter] <;> norm_num
  · unfold run_constraint_checker
    simp only [jsonToWeights]
    rw [show INVOKE_STEP_LIMIT = 25 from rfl, emptyRun_eval]

/-- C6 (corrected): an exception raised by a step function does abort the
run and `run_constraint_checker` returns the pair whose first component
prefixes the original exception's text with the fixed error banner and
whose second component is `None` — but the claim's example input is wrong:
`{}` raises nothing (see the counterexample), while `{"AAPL": 0.0}` does
divide by the zero total and aborts with `ZeroDivisionError`. -/
theorem step_error_aborts_run_amended :
    (∀ (input : Except Unit Json) (e : PyError) (m : String) (n : ℕ),
      run_constraint_checker input = (.engineError e, n) →
      pyErrorMessage e = some m →
      ∀ (fmt : PortfolioState → String) (viz : Option GraphImage),
        rccPair fmt viz (run_constraint_checker input).1 =
          some (rccErrorPrefix ++ m, none)) ∧
    run_constraint_checker (.ok (Json.obj [("AAPL", Json.num 0)])) =
      (.engineError .zeroDivisionError, 2) ∧
    rccErrorPrefix ++ "float division by zero" =
      "❌ Error executing constraint checker: float division by zero" := by
  refine ⟨?_, ?_, rfl⟩
  · intro input e m n hrun hm fmt viz
    rw [hrun]
    simp [rccPair, hm]
  · unfold run_constraint_checker
    simp only [jsonToWeights, Option.map]
    rw [show INVOKE_STEP_LIMIT = 25 from rfl, zeroRun_eval]

/-- Witness for the corrected C6 at the `{"AAPL": 0.0}` input. -/
theorem step_error_aborts_run_amended_witness :
    run_constraint_checker (.ok (Json.obj [("AAPL", Json.num 0)])) =
      (.engineError .zeroDivisionError, 2) ∧
    pyErrorMessage .zeroDivisionError = some "float division by zero" ∧
    rccPair (fun _ => "report") none
        (run_constraint_checker
          (.ok (Json.obj [("AAPL", Json.num 0)]))).1 =
      some (rccErrorPrefix ++ "float division by zero", none) :=
  ⟨step_error_aborts_run_amended.2.1, rfl,
   step_error_aborts_run_amended.1 _ .zeroDivisionError
     "float division by zero" 2 step_error_aborts_run_amended.2.1 rfl
     (fun _ => "report") none⟩

/-- C9: `run_constraint_checker` validates its input before building or
running any workflow: a JSON parse failure yields exactly the pair
`(invalid-JSON message, None)` and a parsed value that is not a dict
yields exactly `(not-a-dict message, None)`; in both branches the executed
step count is 0 — no step function runs — and the pair is independent of
the report formatter and the graph renderer. -/
theorem input_validation_before_execution :
    (run_constraint_checker (.error ()) = (.invalidJson, 0) ∧
      ∀ (fmt : PortfolioState → String) (viz : Option GraphImage),
        rccPair fmt viz .invalidJson = some (invalidJsonMsg, none)) ∧
    (∀ j : Json, j.isObj = false →
      run_constraint_checker (.ok j) = (.notDict, 0)) ∧
    (∀ (fmt : PortfolioState → String) (viz : Option GraphImage),
      rccPair fmt viz .notDict = some (notDictMsg, none)) := by
  refine ⟨⟨rfl, fun fmt viz => rfl⟩, ?_, fun fmt viz => rfl⟩
  intro j hj
  cases j with
  | obj fields => simp [Json.isObj] at hj
  | null => rfl
  | bool b => rfl
  | num q => rfl
  | str s => rfl
  | arr xs => rfl

/-- Witness for C9 at a JSON array input. -/
theorem input_validation_before_execution_witness :
    Json.isObj (Json.arr []) = false ∧
    run_constraint_checker (.ok (Json.arr [])) = (.notDict, 0) :=
  ⟨rfl, input_validation_before_execution.2.1 (Json.arr []) rfl⟩

/-! ## Sum lemmas for the adjustment invariant -/

theorem dictSum_nil : dictSum [] = 0 := rfl

theorem dictSum_cons (p : String × ℚ) (t : Weights) :
    dictSum (p :: t) = p.2 + dictSum t := by
  simp [dictSum]

theorem dictSum_filter_split (h : Weights) (P : String × ℚ → Bool) :
    dictSum (h.filter P) + dictSum (h.filter (fun p => !(P p))) =
      dictSum h := by
  induction h with
  | nil => simp [dictSum]
  | cons p t ih =>
    cases hP : P p <;>
      simp only [List.filter_cons, hP, Bool.not_true, Bool.not_false,
        if_pos, if_neg, Bool.false_eq_true, not_false_eq_true,
        dictSum_cons, ite_true, ite_false] <;> linarith


theorem dictSum_append (a b : Weights) :
    dictSum (a ++ b) = dictSum a + dictSum b := by
  simp [dictSum]

theorem dictSum_scale_nonCash (h : Weights) (c : ℚ) :
    dictSum (h.map (fun p =>
        if p.1 == "CASH" then p else (p.1, p.2 * c))) =
      dictSum (h.filter (fun p => p.1 == "CASH")) +
        c * dictSum (h.filter (fun p => !(p.1 == "CASH"))) := by
  induction h with
  | nil => simp [dictSum]
  | cons p t ih =>
    cases hb : (p.1 == "CASH") <;>
      simp only [List.map_cons, List.filter_cons, hb, Bool.not_true,
        Bool.not_false, Bool.false_eq_true, not_false_eq_true, if_pos,
        if_neg, ite_true, ite_false, dictSum_cons, ih] <;> ring

theorem dictSum_map_div (h : Weights) (t : ℚ) :
    dictSum (h.map (fun p => (p.1, p.2 / t))) = dictSum h / t := by
  induction h with
  | nil => simp [dictSum]
  | cons p rest ih =>
    simp only [List.map_cons, dictSum_cons]
    rw [ih]
    ring

theorem dictSum_pos (h : Weights) (hne : h ≠ []) (hp : ∀ p ∈ h, 0 < p.2) :
    0 < dictSum h := by
  unfold dictSum
  apply List.sum_pos
  · intro x hx
    obtain ⟨p, hpmem, rfl⟩ := List.mem_map.1 hx
    exact hp p hpmem
  · simp [hne]

theorem find?_eq_none_of_not_dictMem (h : Weights) (k : String)
    (hm : dictMem h k = false) :
    h.find? (fun p => p.1 == k) = none := by
  rw [List.find?_eq_none]
  intro x hx hbx
  unfold dictMem at hm
  rw [List.any_eq_false] at hm
  exact hm x hx hbx

theorem dictGet_of_find?_none (t : Weights) (k : String) (d : ℚ)
    (hnone : t.find? (fun p => p.1 == k) = none) :
    dictGet t k d = d := by
  unfold dictGet
  rw [hnone]

theorem map_set_id_of_not_mem (t : Weights) (k : String) (v : ℚ)
    (hk : k ∉ t.map Prod.fst) :
    t.map (fun p => if p.1 == k then (p.1, v) else p) = t := by
  have hcong : ∀ p ∈ t, (if p.1 == k then (p.1, v) else p) = p := by
    intro p hp
    have hne : (p.1 == k) = false := by
      rw [beq_eq_false_iff_ne]
      intro hpk
      exact hk (hpk ▸ List.mem_map_of_mem Prod.fst hp)
    simp [hne]
  calc t.map (fun p => if p.1 == k then (p.1, v) else p)
      = t.map id := List.map_congr_left hcong
    _ = t := List.map_id t

theorem dictSum_dictSet (h : Weights) (k : String) (v : ℚ)
    (hnd : (h.map Prod.fst).Nodup) :
    dictSum (dictSet h k v) = dictSum h - dictGet h k 0 + v := by
  induction h with
  | nil =>
    simp [dictSet, dictMem, dictGet, dictSum]
  | cons p t ih =>
    simp only [List.map_cons, List.nodup_cons] at hnd
    obtain ⟨hheadk, hndt⟩ := hnd
    cases hb : (p.1 == k) with
    | true =>
      have hpk : p.1 = k := beq_iff_eq.1 hb
      have hmem : dictMem (p :: t) k = true := by
        simp [dictMem, List.any_cons, hb]
      unfold dictSet
      rw [if_pos hmem]
      simp only [List.map_cons, hb, ite_true]
      rw [map_set_id_of_not_mem t k v (hpk ▸ hheadk)]
      have hget : dictGet (p :: t) k 0 = p.2 := by
        simp [dictGet, List.find?, hb]
      rw [hget, dictSum_cons, dictSum_cons]
      ring
    | false =>
      have hget : dictGet (p :: t) k 0 = dictGet t k 0 := by
        simp [dictGet, List.find?, hb]
      cases hmem : dictMem t k with
      | true =>
        have hmem2 : dictMem (p :: t) k = true := by
          unfold dictMem at hmem ⊢
          simp [List.any_cons, hb, hmem]
        unfold dictSet
        rw [if_pos hmem2]
        simp only [List.map_cons, hb, Bool.false_eq_true, if_neg,
          not_false_eq_true, ite_false, dictSum_cons]
        have ihr := ih hndt
        unfold dictSet at ihr
        rw [if_pos hmem] at ihr
        rw [ihr, hget]
        ring
      | false =>
        have hmem2 : dictMem (p :: t) k = false := by
          unfold dictMem at hmem ⊢
          simp [List.any_cons, hb, hmem]
        unfold dictSet
        rw [if_neg (by simp [hmem2])]
        rw [hget,
          dictGet_of_find?_none t k 0 (find?_eq_none_of_not_dictMem t k hmem),
          dictSum_append, dictSum_cons, dictSum_cons, dictSum_nil]
        ring

theorem dictSet_keys_of_mem (h : Weights) (k : String) (v : ℚ)
    (hm : dictMem h k = true) :
    (dictSet h k v).map Prod.fst = h.map Prod.fst := by
  unfold dictSet
  rw [if_pos hm, List.map_map]
  exact List.map_congr_left (fun p _ => by
    cases hb : (p.1 == k) <;> simp [Function.comp, hb])

theorem map_scale_keys (h : Weights) (c : ℚ) :
    (h.map (fun p =>
      if p.1 == "CASH" then p else (p.1, p.2 * c))).map Prod.fst =
      h.map Prod.fst := by
  rw [List.map_map]
  exact List.map_congr_left (fun p _ => by
    cases hb : (p.1 == "CASH") <;> simp [Function.comp, hb])

theorem dictSet_pos (h : Weights) (k : String) (v : ℚ) (hv : 0 < v)
    (hp : ∀ p ∈ h, 0 < p.2) : ∀ p ∈ dictSet h k v, 0 < p.2 := by
  intro p hpmem
  unfold dictSet at hpmem
  split at hpmem
  · obtain ⟨q, hq, rfl⟩ := List.mem_map.1 hpmem
    cases hb : (q.1 == k) with
    | true => simpa [hb] using hv
    | false => simpa [hb] using hp q hq
  · rcases List.mem_append.1 hpmem with hmem | hmem
    · exact hp p hmem
    · rw [List.mem_singleton.1 hmem]
      exact hv

theorem capPositions_ok_keys :
    ∀ (vs : List Violation) (h : Weights) (adjs : List Adjustment)
      (res : Weights × List Adjustment),
      capPositions vs h adjs = .ok res →
      res.1.map Prod.fst = h.map Prod.fst := by
  intro vs
  induction vs with
  | nil =>
    intro h adjs res hok
    simp only [capPositions, Except.ok.injEq] at hok
    rw [← hok]
  | cons v rest ih =>
    intro h adjs res hok
    cases v with
    | position_size t w =>
      simp only [capPositions] at hok
      cases hmem : dictMem h t with
      | true =>
        rw [if_pos hmem] at hok
        rw [ih _ _ _ hok, dictSet_keys_of_mem h t _ hmem]
      | false =>
        rw [if_neg (by simp [hmem])] at hok
        exact Except.noConfusion hok
    | cash_reserve c =>
      simp only [capPositions] at hok
      exact ih _ _ _ hok
    | sum_constraint c =>
      simp only [capPositions] at hok
      exact ih _ _ _ hok

theorem capPositions_ok_pos :
    ∀ (vs : List Violation) (h : Weights) (adjs : List Adjustment)
      (res : Weights × List Adjustment),
      capPositions vs h adjs = .ok res →
      (∀ p ∈ h, 0 < p.2) → ∀ p ∈ res.1, 0 < p.2 := by
  intro vs
  induction vs with
  | nil =>
    intro h adjs res hok hp
    simp only [capPositions, Except.ok.injEq] at hok
    rw [← hok]
    exact hp
  | cons v rest ih =>
    intro h adjs res hok hp
    cases v with
    | position_size t w =>
      simp only [capPositions] at hok
      cases hmem : dictMem h t with
      | true =>
        rw [if_pos hmem] at hok
        exact ih _ _ _ hok
          (dictSet_pos h t _ (by norm_num [MAX_POSITION_SIZE]) hp)
      | false =>
        rw [if_neg (by simp [hmem])] at hok
        exact Except.noConfusion hok
    | cash_reserve c =>
      simp only [capPositions] at hok
      exact ih _ _ _ hok hp
    | sum_constraint c =>
      simp only [capPositions] at hok
      exact ih _ _ _ hok hp

theorem fixCash_sum (vs : List Violation) (h : Weights)
    (adjs : List Adjustment) (hnd : (h.map Prod.fst).Nodup) :
    dictSum (fixCash vs h adjs).1 = dictSum h := by
  unfold fixCash
  dsimp only
  split
  · split
    · rename_i hgt
      simp only [bne] at hgt ⊢
      have hnd2 : ((h.map (fun p =>
          if p.1 == "CASH" then p else (p.1, p.2 * ((dictSum (h.filter
            (fun p => !(p.1 == "CASH"))) - (MIN_CASH_RESERVE -
              dictGet h "CASH" 0)) / dictSum (h.filter
            (fun p => !(p.1 == "CASH"))))))).map Prod.fst).Nodup := by
        rw [map_scale_keys]
        exact hnd
      rw [dictSum_dictSet _ _ _ hnd2, dictSum_scale_nonCash,
        div_mul_cancel₀ _ (ne_of_gt hgt)]
      have hsplit := dictSum_filter_split h (fun p => p.1 == "CASH")
      linarith [hsplit]
    · rfl
  · rfl

theorem normalizeHoldings_ok_sum (h : Weights) (adjs : List Adjustment)
    (res : Weights × List Adjustment) (hpos : 0 < dictSum h)
    (hok : normalizeHoldings h adjs = .ok res) :
    pyAbs (dictSum res.1 - 1) ≤ 1 / 100 := by
  unfold normalizeHoldings at hok
  dsimp only at hok
  split at hok
  · split at hok
    · rename_i hnil
      exfalso
      rw [hnil] at hpos
      simp [dictSum] at hpos
    · split at hok
      · exact Except.noConfusion hok
      · rename_i hzero
        simp only [Except.ok.injEq] at hok
        subst hok
        dsimp only
        rw [dictSum_map_div, div_self hzero]
        norm_num [pyAbs]
  · rename_i htol
    simp only [Except.ok.injEq] at hok
    subst hok
    dsimp only
    exact le_of_not_lt htol

/-- C8: for every state whose holdings dict is non-empty with all weights
strictly positive, whenever `adjust_portfolio` returns (rather than
raising), the returned holdings sum to 1 within the 0.01 tolerance — the
capping pass keeps every weight positive, the cash fix preserves the
total, and the final normalization either finds the total already within
tolerance or divides every weight by the (non-zero) total — and
`check_constraints` returns holdings unchanged, so the property persists
through every subsequent check pass of the cycle. -/
theorem adjusted_holdings_sum_within_tolerance :
    ∀ (s s' : PortfolioState),
      (s.holdings.map Prod.fst).Nodup →
      s.holdings ≠ [] →
      (∀ p ∈ s.holdings, 0 < p.2) →
      adjust_portfolio s = .ok s' →
      pyAbs (dictSum s'.holdings - 1) ≤ 1 / 100 ∧
      (check_constraints s').holdings = s'.holdings := by
  intro s s' hnd hne hpos hok
  refine ⟨?_, rfl⟩
  unfold adjust_portfolio at hok
  cases hc : capPositions s.violations s.holdings [] with
  | error e => rw [hc] at hok; exact Except.noConfusion hok
  | ok capped =>
    rw [hc] at hok
    simp only at hok
    cases hn : normalizeHoldings (fixCash s.violations capped.1 capped.2).1
        (fixCash s.violations capped.1 capped.2).2 with
    | error e => rw [hn] at hok; exact Except.noConfusion hok
    | ok normed =>
      rw [hn] at hok
      simp only [Except.ok.injEq] at hok
      subst hok
      dsimp only
      have hkeys := capPositions_ok_keys _ _ _ _ hc
      have hnd1 : (capped.1.map Prod.fst).Nodup := by
        rw [hkeys]; exact hnd
      have hne1 : capped.1 ≠ [] := by
        intro hnil
        apply hne
        have : s.holdings.map Prod.fst = [] := by
          rw [← hkeys, hnil, List.map_nil]
        exact List.map_eq_nil.1 this
      have hpos1 : ∀ p ∈ capped.1, 0 < p.2 :=
        capPositions_ok_pos _ _ _ _ hc hpos
      have hfix : dictSum (fixCash s.violations capped.1 capped.2).1 =
          dictSum capped.1 :=
        fixCash_sum _ _ _ hnd1
      have hpos2 : 0 < dictSum
          (fixCash s.violations capped.1 capped.2).1 := by
        rw [hfix]
        exact dictSum_pos capped.1 hne1 hpos1
      exact normalizeHoldings_ok_sum _ _ _ hpos2 hn

/-- Witness for C8 at a concrete positive two-asset portfolio. -/
theorem adjusted_holdings_sum_within_tolerance_witness :
    ((([("AAPL", (1 : ℚ) / 2), ("CASH", 1 / 2)] :
        Weights).map Prod.fst).Nodup ∧
      ([("AAPL", (1 : ℚ) / 2), ("CASH", 1 / 2)] : Weights) ≠ [] ∧
      (∀ p ∈ ([("AAPL", (1 : ℚ) / 2), ("CASH", 1 / 2)] : Weights),
        0 < p.2) ∧
      adjust_portfolio
          ⟨[("AAPL", 1 / 2), ("CASH", 1 / 2)],
           [Violation.position_size "AAPL" (1 / 2)], 1, [], "checking"⟩ =
        .ok ⟨[("AAPL", 1 / 3), ("CASH", 2 / 3)],
          [Violation.position_size "AAPL" (1 / 2)], 1,
          [Adjustment.reduced "AAPL" (1 / 2) (1 / 4),
           Adjustment.normalized], "adjusting"⟩) ∧
    (pyAbs (dictSum ([("AAPL", (1 : ℚ) / 3), ("CASH", 2 / 3)] :
        Weights) - 1) ≤ 1 / 100 ∧
      (check_constraints
        ⟨[("AAPL", 1 / 3), ("CASH", 2 / 3)],
         [Violation.position_size "AAPL" (1 / 2)], 1,
         [Adjustment.reduced "AAPL" (1 / 2) (1 / 4),
          Adjustment.normalized], "adjusting"⟩).holdings =
      (⟨[("AAPL", 1 / 3), ("CASH", 2 / 3)],
        [Violation.position_size "AAPL" (1 / 2)], 1,
        [Adjustment.reduced "AAPL" (1 / 2) (1 / 4),
         Adjustment.normalized], "adjusting"⟩ :
          PortfolioState).holdings) :=
  ⟨⟨by decide, by decide,
    by simp [List.forall_mem_cons] <;> norm_num,
    by simp [adjust_portfolio, capPositions, fixCash, normalizeHoldings,
      dictSum, dictGet, dictMem, dictSet, pyAbs, MIN_CASH_RESERVE,
      MAX_POSITION_SIZE, List.find?, List.filterMap, List.any,
      List.filter] <;> norm_num⟩,
   adjusted_holdings_sum_within_tolerance
     ⟨[("AAPL", 1 / 2), ("CASH", 1 / 2)],
      [Violation.position_size "AAPL" (1 / 2)], 1, [], "checking"⟩
     ⟨[("AAPL", 1 / 3), ("CASH", 2 / 3)],
      [Violation.position_size "AAPL" (1 / 2)], 1,
      [Adjustment.reduced "AAPL" (1 / 2) (1 / 4),
       Adjustment.normalized], "adjusting"⟩
     (by decide) (by decide)
     (by simp [List.forall_mem_cons] <;> norm_num)
     (by simp [adjust_portfolio, capPositions, fixCash, normalizeHoldings,
       dictSum, dictGet, dictMem, dictSet, pyAbs, MIN_CASH_RESERVE,
       MAX_POSITION_SIZE, List.find?, List.filterMap, List.any,
       List.filter] <;> norm_num)⟩
